import Mathlib

/-!
# Verification of the NotebookLM skill's core data structures

Shallow embedding of the query-pipeline core of the NotebookLM_Skill
repository:

* `src/src/cache/response-cache.ts` — the LRU/TTL `ResponseCache`
  (`generateKey`, `get`, `set`, `load`);
* `src/src/browser/browser-utils.ts` — the adaptive response detector
  `waitForResponseOptimized`, modelled as a step function over a trace of
  poll observations;
* the `SessionPool` / `NotebookLMSession` browser-pool module
  (`getSession`, `resetIfNeeded`, `validateAuth`, `close`), modelled with
  explicit session identities and an event log for the calls the pool makes.

ES6 `Map` iteration/insertion-order semantics are modelled by association
lists: `set` replaces the first binding in place when the key is present and
appends otherwise; `delete` removes the first binding; `keys().next()` is the
head.  Wall-clock instants (`Date.now()/1000` seconds) are passed explicitly
as integers.  Browser/file I/O (persistence, navigation) is outside the
model; the in-memory state transitions are embedded faithfully.
-/

namespace NotebookLM

/-! ## ES6 Map model -/

/-- `Map.get`: value of the first binding for `k`, if any. -/
def mapGet {α : Type} : List (String × α) → String → Option α
  | [], _ => none
  | p :: rest, k => if p.1 = k then some p.2 else mapGet rest k

/-- `Map.set`: replace the binding for `k` in place if present (a `Map` holds
at most one binding per key), else append, preserving insertion order. -/
def mapSet {α : Type} : List (String × α) → String → α → List (String × α)
  | [], k, v => [(k, v)]
  | p :: rest, k, v => if p.1 = k then (k, v) :: rest else p :: mapSet rest k v

/-- `Map.delete`: remove the binding for `k`, preserving the order of the
remaining bindings. -/
def mapDelete {α : Type} : List (String × α) → String → List (String × α)
  | [], _ => []
  | p :: rest, k => if p.1 = k then rest else p :: mapDelete rest k

/-! ## Response cache (`src/src/cache/response-cache.ts`) -/

/-- `DEFAULT_MAX_SIZE = 100`. -/
def DEFAULT_MAX_SIZE : Nat := 100

/-- `DEFAULT_TTL_SECONDS = 86400` (24 hours). -/
def DEFAULT_TTL_SECONDS : Int := 86400

/-- `InternalCacheEntry`: one cached answer.  `timestamp` is the creation
instant in seconds (`Date.now() / 1000`). -/
structure InternalCacheEntry where
  question : String
  answer : String
  notebookUrl : String
  timestamp : Int
  hitCount : Nat
deriving Repr, DecidableEq

/-- `InternalCacheEntry.isExpired(ttlSeconds)`:
`(Date.now() / 1000 - this.timestamp) > ttlSeconds`, with the current instant
`now` passed explicitly. -/
def isExpired (e : InternalCacheEntry) (ttlSeconds now : Int) : Bool :=
  ttlSeconds < now - e.timestamp

/-- JS `String.prototype.toLowerCase()`: per-character lowering (faithful on
the ASCII range; modelled with `Char.toLower`, defined structurally so that
concrete strings evaluate inside proofs). -/
def jsToLowerCase (s : String) : String := ⟨s.data.map Char.toLower⟩

/-- JS `String.prototype.trim()`: remove whitespace from both ends, modelled
structurally over the character list. -/
def jsTrim (s : String) : String :=
  ⟨((s.data.dropWhile Char.isWhitespace).reverse.dropWhile
      Char.isWhitespace).reverse⟩

/-- `question.toLowerCase().trim()` — the normalization applied to the
question before key generation. -/
def normalizeQuestion (q : String) : String := jsTrim (jsToLowerCase q)

/-- `ResponseCache.generateKey`: the key data is
`question.toLowerCase().trim() + ":" + notebookUrl`.  The code then takes the
md5 hex digest of this string; the digest step is modelled as an injective
encoding, so equality of model keys corresponds to equality of the digested
key data (equal key data forces equal digests in the code as well). -/
def generateKey (question notebookUrl : String) : String :=
  normalizeQuestion question ++ ":" ++ notebookUrl

/-- The mutable state of a `ResponseCache` instance: the insertion-ordered
map and the statistics counters, together with the configuration
(`maxSize`, `ttlSeconds`). -/
structure CacheState where
  maxSize : Nat
  ttlSeconds : Int
  cache : List (String × InternalCacheEntry)
  hits : Nat
  misses : Nat
  evictions : Nat
  totalQueries : Nat
  writesSinceLastSave : Nat
deriving Repr, DecidableEq

/-- A fresh cache with the given configuration (constructor plus an empty
load). -/
def emptyCache (maxSize : Nat) (ttlSeconds : Int) : CacheState :=
  { maxSize := maxSize, ttlSeconds := ttlSeconds, cache := []
    hits := 0, misses := 0, evictions := 0, totalQueries := 0
    writesSinceLastSave := 0 }

namespace ResponseCache

/-- `ResponseCache.get(question, notebookUrl)` at instant `now`: count the
query; on a missing or expired key count a miss (deleting an expired entry);
on a hit re-insert the entry at the most-recently-used end with `hitCount`
incremented, count a hit, and return the answer. -/
def get (s : CacheState) (question notebookUrl : String) (now : Int) :
    Option String × CacheState :=
  let s := { s with totalQueries := s.totalQueries + 1 }
  let key := generateKey question notebookUrl
  match mapGet s.cache key with
  | none => (none, { s with misses := s.misses + 1 })
  | some entry =>
    if isExpired entry s.ttlSeconds now then
      (none, { s with cache := mapDelete s.cache key, misses := s.misses + 1 })
    else
      let entry := { entry with hitCount := entry.hitCount + 1 }
      (some entry.answer,
        { s with cache := mapSet (mapDelete s.cache key) key entry
                 hits := s.hits + 1 })

/-- `ResponseCache.set(question, answer, notebookUrl)` at instant `now`:
when at capacity and the key is new, delete the oldest (head) binding and
count an eviction; then store a fresh entry at the most-recently-used end.
(`if (oldestKey)` in the code skips the delete when the map is empty;
`generateKey` never yields an empty string, so truthiness is non-emptiness
of the map.) -/
def set (s : CacheState) (question answer notebookUrl : String) (now : Int) :
    CacheState :=
  let key := generateKey question notebookUrl
  let s :=
    if s.maxSize ≤ s.cache.length ∧ mapGet s.cache key = none then
      match s.cache.head? with
      | some oldest =>
        { s with cache := mapDelete s.cache oldest.1
                 evictions := s.evictions + 1 }
      | none => s
    else s
  let entry : InternalCacheEntry :=
    { question := question, answer := answer, notebookUrl := notebookUrl
      timestamp := now, hitCount := 0 }
  { s with cache := mapSet (mapDelete s.cache key) key entry
           writesSinceLastSave := s.writesSinceLastSave + 1 }

/-- The statistics block of the persisted cache file. -/
structure PersistedStats where
  hits : Nat
  misses : Nat
  evictions : Nat
  totalQueries : Nat
deriving Repr, DecidableEq

/-- `ResponseCache.load` (successful-parse path): starting from an empty map,
insert each persisted entry that is not expired at instant `now`, in file
order, and adopt the persisted statistics unchanged. -/
def load (maxSize : Nat) (ttlSeconds : Int)
    (entries : List (String × InternalCacheEntry))
    (stats : PersistedStats) (now : Int) : CacheState :=
  { maxSize := maxSize, ttlSeconds := ttlSeconds
    cache := entries.foldl
      (fun acc p =>
        if isExpired p.2 ttlSeconds now then acc else mapSet acc p.1 p.2) []
    hits := stats.hits, misses := stats.misses, evictions := stats.evictions
    totalQueries := stats.totalQueries, writesSinceLastSave := 0 }

end ResponseCache

/-! ## Map lemmas -/

theorem mapGet_mapSet_self {α : Type} (m : List (String × α)) (k : String)
    (v : α) : mapGet (mapSet m k v) k = some v := by
  induction m with
  | nil => simp [mapSet, mapGet]
  | cons p rest ih =>
    by_cases h : p.1 = k
    · simp [mapSet, mapGet, h]
    · simp [mapSet, mapGet, h, ih]

theorem mapGet_mapSet_ne {α : Type} (m : List (String × α)) (k k' : String)
    (v : α) (h : k' ≠ k) : mapGet (mapSet m k v) k' = mapGet m k' := by
  induction m with
  | nil => simp [mapSet, mapGet, Ne.symm h]
  | cons p rest ih =>
    by_cases hp : p.1 = k
    · simp [mapSet, mapGet, hp, Ne.symm h]
    · simp [mapSet, mapGet, hp, ih]

theorem mapGet_mapDelete_ne {α : Type} (m : List (String × α)) (k k' : String)
    (h : k' ≠ k) : mapGet (mapDelete m k) k' = mapGet m k' := by
  induction m with
  | nil => simp [mapDelete]
  | cons p rest ih =>
    by_cases hp : p.1 = k
    · simp [mapDelete, mapGet, hp, Ne.symm h]
    · simp [mapDelete, mapGet, hp, ih]

theorem mapDelete_of_not_mem {α : Type} (m : List (String × α)) (k : String)
    (h : mapGet m k = none) : mapDelete m k = m := by
  induction m with
  | nil => simp [mapDelete]
  | cons p rest ih =>
    by_cases hp : p.1 = k
    · simp [mapGet, hp] at h
    · simp [mapGet, hp] at h
      simp [mapDelete, hp, ih h]

theorem mapSet_of_not_mem {α : Type} (m : List (String × α)) (k : String)
    (v : α) (h : mapGet m k = none) : mapSet m k v = m ++ [(k, v)] := by
  induction m with
  | nil => simp [mapSet]
  | cons p rest ih =>
    by_cases hp : p.1 = k
    · simp [mapGet, hp] at h
    · simp [mapGet, hp] at h
      simp [mapSet, hp, ih h]

theorem mapGet_none_of_cons {α : Type} (p : String × α)
    (rest : List (String × α)) (k : String)
    (h : mapGet (p :: rest) k = none) : mapGet rest k = none := by
  by_cases hp : p.1 = k
  · simp [mapGet, hp] at h
  · simpa [mapGet, hp] using h

theorem mapGet_append {α : Type} (m l : List (String × α)) (k : String) :
    mapGet (m ++ l) k =
      match mapGet m k with
      | some v => some v
      | none => mapGet l k := by
  induction m with
  | nil => simp [mapGet]
  | cons p rest ih =>
    by_cases hp : p.1 = k
    · simp [mapGet, hp]
    · simp [mapGet, hp, ih]

theorem mapGet_isSome_of_mem {α : Type} (m : List (String × α))
    (k : String) (v : α) (h : (k, v) ∈ m) : (mapGet m k).isSome := by
  induction m with
  | nil => simp at h
  | cons p rest ih =>
    by_cases hp : p.1 = k
    · simp [mapGet, hp]
    · rcases List.mem_cons.mp h with h1 | h1
      · exact absurd (congrArg Prod.fst h1.symm) hp
      · simpa [mapGet, hp] using ih h1

/-! ## Claim C1 -/

/-- **C1.** For every question `q`, answer `a`, notebook target `t` and
state of the cache, `set(q, a, t)` followed immediately by `get(q, t)` (at
the same instant, with a positive TTL so the fresh entry is not expired)
returns `a`. -/
theorem claim_C1 (s : CacheState) (q a t : String) (now : Int)
    (httl : 0 < s.ttlSeconds) :
    (ResponseCache.get (ResponseCache.set s q a t now) q t now).1 = some a := by
  unfold ResponseCache.set ResponseCache.get
  have hget :
      ∀ c : List (String × InternalCacheEntry),
        mapGet (mapSet (mapDelete c (generateKey q t)) (generateKey q t)
          ({ question := q, answer := a, notebookUrl := t
             timestamp := now, hitCount := 0 } : InternalCacheEntry))
          (generateKey q t) =
        some { question := q, answer := a, notebookUrl := t
               timestamp := now, hitCount := 0 } :=
    fun c => mapGet_mapSet_self _ _ _
  have hexp :
      isExpired
        { question := q, answer := a, notebookUrl := t
          timestamp := now, hitCount := 0 } s.ttlSeconds now = false := by
    simp [isExpired]
    omega
  by_cases hcap : s.maxSize ≤ s.cache.length ∧ mapGet s.cache (generateKey q t) = none
  · cases hh : s.cache.head? with
    | none => simp [hcap, hh, hget, hexp]
    | some oldest => simp [hcap, hh, hget, hexp]
  · simp [hcap, hget, hexp]

/-- Witness for C1 at a concrete input: a fresh default-configured cache,
`q = "What is AI?"`, `a = "An answer."`, `t = "nb1"`, `now = 1000`. -/
theorem claim_C1_witness :
    0 < (emptyCache DEFAULT_MAX_SIZE DEFAULT_TTL_SECONDS).ttlSeconds ∧
    (ResponseCache.get
      (ResponseCache.set (emptyCache DEFAULT_MAX_SIZE DEFAULT_TTL_SECONDS)
        "What is AI?" "An answer." "nb1" 1000)
      "What is AI?" "nb1" 1000).1 = some "An answer." :=
  ⟨by decide,
   claim_C1 (emptyCache DEFAULT_MAX_SIZE DEFAULT_TTL_SECONDS)
     "What is AI?" "An answer." "nb1" 1000 (by decide)⟩

theorem mapGet_eq_none_of_not_mem_keys {α : Type} (m : List (String × α))
    (k : String) (h : k ∉ m.map Prod.fst) : mapGet m k = none := by
  induction m with
  | nil => simp [mapGet]
  | cons p rest ih =>
    simp only [List.map_cons, List.mem_cons] at h
    push_neg at h
    simp [mapGet, Ne.symm h.1, ih h.2]

theorem mapGet_mapDelete_self_of_nodup {α : Type} (m : List (String × α))
    (k : String) (hnd : (m.map Prod.fst).Nodup) :
    mapGet (mapDelete m k) k = none := by
  induction m with
  | nil => simp [mapDelete, mapGet]
  | cons p rest ih =>
    simp only [List.map_cons, List.nodup_cons] at hnd
    by_cases hp : p.1 = k
    · simp only [mapDelete, hp, if_pos rfl]
      exact mapGet_eq_none_of_not_mem_keys rest k (hp ▸ hnd.1)
    · simp [mapDelete, mapGet, hp, ih hnd.2]

/-- The md5 key data `q.toLowerCase().trim() + ":" + t` determines `t` when
the (normalized) question is fixed: the prefix before the first added `":"`
has a fixed length, so equal keys force equal targets. -/
theorem generateKey_cancel_target (q t1 t2 : String)
    (h : generateKey q t1 = generateKey q t2) : t1 = t2 := by
  unfold generateKey at h
  have h2 := congrArg String.data h
  simp only [String.data_append] at h2
  have h3 := List.append_cancel_left h2
  exact String.ext h3

/-! ## Claim C6 -/

/-- Auxiliary for `ResponseCache.load`: if every persisted binding of `k` is
expired, the rebuilt map has no binding for `k`. -/
theorem load_drops_expired_aux (ttlSeconds now : Int)
    (entries : List (String × InternalCacheEntry)) :
    ∀ acc : List (String × InternalCacheEntry),
      mapGet acc k = none →
      (∀ e', (k, e') ∈ entries → isExpired e' ttlSeconds now = true) →
      mapGet
        (entries.foldl
          (fun acc p =>
            if isExpired p.2 ttlSeconds now then acc else mapSet acc p.1 p.2)
          acc) k = none := by
  induction entries with
  | nil => intro acc hacc _; simpa using hacc
  | cons p rest ih =>
    intro acc hacc hexp
    simp only [List.foldl_cons]
    by_cases hp : isExpired p.2 ttlSeconds now = true
    · rw [if_pos hp]
      exact ih acc hacc (fun e' he' => hexp e' (List.mem_cons_of_mem _ he'))
    · rw [if_neg hp]
      have hk : p.1 ≠ k := by
        intro hkk
        exact hp (hexp p.2 (by simp [← hkk]))
      refine ih (mapSet acc p.1 p.2) ?_
        (fun e' he' => hexp e' (List.mem_cons_of_mem _ he'))
      rw [mapGet_mapSet_ne acc p.1 k p.2 (Ne.symm hk)]
      exact hacc

/-- **C6.** An entry older than the TTL is dead: `get` on its key misses
(miss counter incremented, entry deleted from the map — with the `Map`'s
one-binding-per-key invariant the key is then absent), and `load` drops every
expired persisted entry silently while adopting the persisted statistics
counters unchanged. -/
theorem claim_C6 (s : CacheState) (q t : String) (now : Int)
    (e : InternalCacheEntry)
    (hnd : (s.cache.map Prod.fst).Nodup)
    (hmem : mapGet s.cache (generateKey q t) = some e)
    (hexp : isExpired e s.ttlSeconds now = true) :
    ((ResponseCache.get s q t now).1 = none ∧
     (ResponseCache.get s q t now).2.misses = s.misses + 1 ∧
     (ResponseCache.get s q t now).2.hits = s.hits ∧
     mapGet (ResponseCache.get s q t now).2.cache (generateKey q t) = none) ∧
    (∀ (maxSize : Nat) (ttlSeconds now' : Int)
       (entries : List (String × InternalCacheEntry))
       (stats : ResponseCache.PersistedStats) (k : String),
      (∀ e', (k, e') ∈ entries → isExpired e' ttlSeconds now' = true) →
      mapGet (ResponseCache.load maxSize ttlSeconds entries stats now').cache k
          = none ∧
      (ResponseCache.load maxSize ttlSeconds entries stats now').hits
          = stats.hits ∧
      (ResponseCache.load maxSize ttlSeconds entries stats now').misses
          = stats.misses ∧
      (ResponseCache.load maxSize ttlSeconds entries stats now').evictions
          = stats.evictions) := by
  constructor
  · have hdel := mapGet_mapDelete_self_of_nodup s.cache (generateKey q t) hnd
    unfold ResponseCache.get
    simp [hmem, hexp, hdel]
  · intro maxSize ttlSeconds now' entries stats k hall
    refine ⟨?_, rfl, rfl, rfl⟩
    exact load_drops_expired_aux ttlSeconds now' entries [] (by simp [mapGet]) hall

/-- Witness for C6 at a concrete input: a one-entry cache whose entry was
created at instant `0`, TTL `10`, queried at instant `100`; and a persisted
file holding only that stale entry. -/
theorem claim_C6_witness :
    ((ResponseCache.get
        { maxSize := 100, ttlSeconds := 10
          cache := [(generateKey "q" "nb",
            { question := "q", answer := "a", notebookUrl := "nb"
              timestamp := 0, hitCount := 0 })]
          hits := 3, misses := 4, evictions := 0, totalQueries := 7
          writesSinceLastSave := 0 } "q" "nb" 100).1 = none ∧
      (ResponseCache.get
        { maxSize := 100, ttlSeconds := 10
          cache := [(generateKey "q" "nb",
            { question := "q", answer := "a", notebookUrl := "nb"
              timestamp := 0, hitCount := 0 })]
          hits := 3, misses := 4, evictions := 0, totalQueries := 7
          writesSinceLastSave := 0 } "q" "nb" 100).2.misses = 4 + 1 ∧
      (ResponseCache.get
        { maxSize := 100, ttlSeconds := 10
          cache := [(generateKey "q" "nb",
            { question := "q", answer := "a", notebookUrl := "nb"
              timestamp := 0, hitCount := 0 })]
          hits := 3, misses := 4, evictions := 0, totalQueries := 7
          writesSinceLastSave := 0 } "q" "nb" 100).2.hits = 3 ∧
      mapGet (ResponseCache.get
        { maxSize := 100, ttlSeconds := 10
          cache := [(generateKey "q" "nb",
            { question := "q", answer := "a", notebookUrl := "nb"
              timestamp := 0, hitCount := 0 })]
          hits := 3, misses := 4, evictions := 0, totalQueries := 7
          writesSinceLastSave := 0 } "q" "nb" 100).2.cache
        (generateKey "q" "nb") = none) ∧
    (∀ (maxSize : Nat) (ttlSeconds now' : Int)
       (entries : List (String × InternalCacheEntry))
       (stats : ResponseCache.PersistedStats) (k : String),
      (∀ e', (k, e') ∈ entries → isExpired e' ttlSeconds now' = true) →
      mapGet (ResponseCache.load maxSize ttlSeconds entries stats now').cache k
          = none ∧
      (ResponseCache.load maxSize ttlSeconds entries stats now').hits
          = stats.hits ∧
      (ResponseCache.load maxSize ttlSeconds entries stats now').misses
          = stats.misses ∧
      (ResponseCache.load maxSize ttlSeconds entries stats now').evictions
          = stats.evictions) :=
  claim_C6
    { maxSize := 100, ttlSeconds := 10
      cache := [(generateKey "q" "nb",
        { question := "q", answer := "a", notebookUrl := "nb"
          timestamp := 0, hitCount := 0 })]
      hits := 3, misses := 4, evictions := 0, totalQueries := 7
      writesSinceLastSave := 0 } "q" "nb" 100
    { question := "q", answer := "a", notebookUrl := "nb"
      timestamp := 0, hitCount := 0 }
    (by decide) (by simp [mapGet]) (by decide)

/-! ## Claim C7 -/

/-- **C7.** Cache lookup is case- and whitespace-insensitive on the question
but exact on the target: `"What is AI?"` and `"what is ai?  "` produce the
same key against any target `t`, and after `set("What is AI?", a, t)` on an
empty cache, `get("what is ai?  ", t)` returns `a` while
`get("What is AI?", t')` for `t' ≠ t` produces a different key and misses. -/
theorem claim_C7 (t t' a : String) (now : Int) (hne : t' ≠ t) :
    generateKey "What is AI?" t = generateKey "what is ai?  " t ∧
    generateKey "What is AI?" t ≠ generateKey "What is AI?" t' ∧
    (ResponseCache.get
      (ResponseCache.set (emptyCache DEFAULT_MAX_SIZE DEFAULT_TTL_SECONDS)
        "What is AI?" a t now) "what is ai?  " t now).1 = some a ∧
    (ResponseCache.get
      (ResponseCache.set (emptyCache DEFAULT_MAX_SIZE DEFAULT_TTL_SECONDS)
        "What is AI?" a t now) "What is AI?" t' now).1 = none := by
  have hnorm : normalizeQuestion "What is AI?"
      = normalizeQuestion "what is ai?  " := by decide
  have hkey : generateKey "What is AI?" t = generateKey "what is ai?  " t := by
    unfold generateKey; rw [hnorm]
  refine ⟨hkey, ?_, ?_, ?_⟩
  · intro h
    exact hne (generateKey_cancel_target "What is AI?" t t' h).symm
  · have hexp :
        isExpired
          { question := "What is AI?", answer := a, notebookUrl := t
            timestamp := now, hitCount := 0 }
          DEFAULT_TTL_SECONDS now = false := by
      simp [isExpired, DEFAULT_TTL_SECONDS]
    unfold ResponseCache.get
    simp [ResponseCache.set, emptyCache, DEFAULT_MAX_SIZE, mapSet, mapDelete,
      mapGet, ← hkey, hexp]
  · have hk2 : generateKey "What is AI?" t ≠ generateKey "What is AI?" t' := by
      intro h
      exact hne (generateKey_cancel_target "What is AI?" t t' h).symm
    unfold ResponseCache.get
    simp [ResponseCache.set, emptyCache, DEFAULT_MAX_SIZE, mapSet, mapDelete,
      mapGet, hk2]

/-- Witness for C7 at a concrete input: `t = "nbA"`, `t' = "nbB"`,
`a = "ans"`, `now = 5`. -/
theorem claim_C7_witness :
    generateKey "What is AI?" "nbA" = generateKey "what is ai?  " "nbA" ∧
    generateKey "What is AI?" "nbA" ≠ generateKey "What is AI?" "nbB" ∧
    (ResponseCache.get
      (ResponseCache.set (emptyCache DEFAULT_MAX_SIZE DEFAULT_TTL_SECONDS)
        "What is AI?" "ans" "nbA" 5) "what is ai?  " "nbA" 5).1 = some "ans" ∧
    (ResponseCache.get
      (ResponseCache.set (emptyCache DEFAULT_MAX_SIZE DEFAULT_TTL_SECONDS)
        "What is AI?" "ans" "nbA" 5) "What is AI?" "nbB" 5).1 = none :=
  claim_C7 "nbA" "nbB" "ans" 5 (by decide)

/-! ## Claim C8 -/

/-- **C8, counterexample.** The claim asserts that keys for two entries with
different notebook targets never collide.  The key data is
`normalized(question) + ":" + target`, and the separator is ambiguous when
the question itself contains `":"`: the pairs (`"a:b"`, `"c"`) and
(`"a"`, `"b:c"`) have different targets but identical key data, hence equal
md5 keys. -/
theorem claim_C8_counterexample :
    ("c" : String) ≠ "b:c" ∧ generateKey "a:b" "c" = generateKey "a" "b:c" := by
  constructor
  · decide
  · decide

/-- **C8, amended.** The key is a deterministic function of the lower-cased,
trimmed question and the target (questions with equal normal forms give
equal keys), and for a *fixed* question different targets never collide; but
across different questions, entries with different targets *can* collide
(the question may contain `":"`, see the counterexample). -/
theorem claim_C8 (q1 q2 t : String)
    (hq : normalizeQuestion q1 = normalizeQuestion q2) :
    generateKey q1 t = generateKey q2 t ∧
    ∀ t1 t2, generateKey q1 t1 = generateKey q1 t2 → t1 = t2 := by
  constructor
  · unfold generateKey; rw [hq]
  · exact fun t1 t2 h => generateKey_cancel_target q1 t1 t2 h

/-- Witness for C8 (amended) at a concrete input: `q1 = "  Hello "`,
`q2 = "hello"`, `t = "nb"`. -/
theorem claim_C8_witness :
    generateKey "  Hello " "nb" = generateKey "hello" "nb" ∧
    ∀ t1 t2, generateKey "  Hello " t1 = generateKey "  Hello " t2 → t1 = t2 :=
  claim_C8 "  Hello " "hello" "nb" (by decide)

/-! ## Claim C5 -/

theorem mapDelete_length_of_get_some {α : Type} (m : List (String × α))
    (k : String) (v : α) (h : mapGet m k = some v) :
    (mapDelete m k).length + 1 = m.length := by
  induction m with
  | nil => simp [mapGet] at h
  | cons p rest ih =>
    by_cases hp : p.1 = k
    · simp [mapDelete, hp]
    · simp only [mapGet, hp, if_neg hp] at h
      simp [mapDelete, hp, ← ih h]

theorem mapGet_append_isSome {α : Type} (m l : List (String × α))
    (k : String) :
    (mapGet (m ++ l) k).isSome
      = ((mapGet m k).isSome || (mapGet l k).isSome) := by
  rw [mapGet_append]
  cases mapGet m k <;> simp

/-- The new-key-at-capacity branch of `ResponseCache.set`: exactly the head
(= least-recently-used) binding is evicted, the eviction counter increments,
and the fresh entry lands at the most-recently-used end. -/
theorem set_evicts_head (s : CacheState) (q a u : String) (now : Int)
    (hfresh : mapGet s.cache (generateKey q u) = none)
    (hcap : s.maxSize ≤ s.cache.length)
    (hne : s.cache ≠ []) :
    (ResponseCache.set s q a u now).cache
      = s.cache.tail ++
        [(generateKey q u,
          { question := q, answer := a, notebookUrl := u
            timestamp := now, hitCount := 0 })] ∧
    (ResponseCache.set s q a u now).evictions = s.evictions + 1 := by
  obtain ⟨p, rest, hc⟩ := List.exists_cons_of_ne_nil hne
  have hrest : mapGet rest (generateKey q u) = none := by
    rw [hc] at hfresh
    exact mapGet_none_of_cons p rest _ hfresh
  have hdel : mapDelete (p :: rest) p.1 = rest := by simp [mapDelete]
  simp only [ResponseCache.set]
  rw [hc] at hfresh hcap ⊢
  rw [if_pos ⟨hcap, hfresh⟩]
  simp only [List.head?_cons, hdel]
  rw [mapDelete_of_not_mem rest _ hrest, mapSet_of_not_mem rest _ _ hrest]
  exact ⟨rfl, trivial⟩

/-- The overwrite branch of `ResponseCache.set`: when the key is already
present no eviction happens — the eviction counter is unchanged and exactly
the same keys are present afterwards. -/
theorem set_overwrite_no_eviction (s : CacheState) (q a u : String)
    (now : Int) (hsome : (mapGet s.cache (generateKey q u)).isSome) :
    (ResponseCache.set s q a u now).evictions = s.evictions ∧
    ∀ k, (mapGet (ResponseCache.set s q a u now).cache k).isSome
        = (mapGet s.cache k).isSome := by
  have hcond : ¬(s.maxSize ≤ s.cache.length ∧
      mapGet s.cache (generateKey q u) = none) := by
    rintro ⟨-, hnone⟩
    rw [hnone] at hsome
    simp at hsome
  simp only [ResponseCache.set]
  rw [if_neg hcond]
  refine ⟨rfl, fun k => ?_⟩
  by_cases hk : k = generateKey q u
  · subst hk
    rw [mapGet_mapSet_self]
    simp [hsome]
  · rw [mapGet_mapSet_ne _ _ _ _ hk, mapGet_mapDelete_ne _ _ _ hk]

/-- A hit in `ResponseCache.get` re-inserts the entry at the
most-recently-used end of the map (with its hit counter incremented);
configuration and map size are unchanged. -/
theorem get_hit_state (s : CacheState) (qp tp : String) (now : Int)
    (e : InternalCacheEntry)
    (hnd : (s.cache.map Prod.fst).Nodup)
    (hsome : mapGet s.cache (generateKey qp tp) = some e)
    (hnexp : isExpired e s.ttlSeconds now = false) :
    (ResponseCache.get s qp tp now).2.cache
      = mapDelete s.cache (generateKey qp tp) ++
        [(generateKey qp tp, { e with hitCount := e.hitCount + 1 })] ∧
    (ResponseCache.get s qp tp now).2.maxSize = s.maxSize ∧
    (ResponseCache.get s qp tp now).2.cache.length = s.cache.length := by
  have habs : mapGet (mapDelete s.cache (generateKey qp tp))
      (generateKey qp tp) = none :=
    mapGet_mapDelete_self_of_nodup s.cache _ hnd
  have hlen := mapDelete_length_of_get_some s.cache _ e hsome
  unfold ResponseCache.get
  simp only [hsome]
  rw [mapSet_of_not_mem _ _ _ habs]
  refine ⟨by simp [hnexp], by simp [hnexp], ?_⟩
  simp [hnexp, ← hlen]

/-- **C5.** `set` evicts exactly the least-recently-used binding, and only
when at capacity with a new key: (i) a new key inserted at capacity evicts
the head (LRU) binding only, incrementing the eviction counter; (ii)
overwriting an existing key never evicts nor increments the counter; (iii)
an entry promoted to most-recently-used by a `get` hit is not the one
evicted by a subsequent at-capacity insertion of a fresh key (given ≥ 2
entries, so that the promoted entry is not itself the LRU). -/
theorem claim_C5 :
    (∀ (s : CacheState) (q a u : String) (now : Int),
      mapGet s.cache (generateKey q u) = none →
      s.maxSize ≤ s.cache.length →
      s.cache ≠ [] →
      (ResponseCache.set s q a u now).cache
        = s.cache.tail ++
          [(generateKey q u,
            { question := q, answer := a, notebookUrl := u
              timestamp := now, hitCount := 0 })] ∧
      (ResponseCache.set s q a u now).evictions = s.evictions + 1) ∧
    (∀ (s : CacheState) (q a u : String) (now : Int),
      (mapGet s.cache (generateKey q u)).isSome →
      (ResponseCache.set s q a u now).evictions = s.evictions ∧
      ∀ k, (mapGet (ResponseCache.set s q a u now).cache k).isSome
          = (mapGet s.cache k).isSome) ∧
    (∀ (s : CacheState) (qp tp q a u : String) (now : Int)
       (e : InternalCacheEntry),
      (s.cache.map Prod.fst).Nodup →
      mapGet s.cache (generateKey qp tp) = some e →
      isExpired e s.ttlSeconds now = false →
      mapGet s.cache (generateKey q u) = none →
      generateKey q u ≠ generateKey qp tp →
      s.maxSize ≤ s.cache.length →
      2 ≤ s.cache.length →
      (mapGet
        (ResponseCache.set (ResponseCache.get s qp tp now).2 q a u now).cache
        (generateKey qp tp)).isSome) := by
  refine ⟨fun s q a u now h1 h2 h3 => set_evicts_head s q a u now h1 h2 h3,
    fun s q a u now h1 => set_overwrite_no_eviction s q a u now h1,
    fun s qp tp q a u now e hnd hsome hnexp hfresh hkne hcap hlen2 => ?_⟩
  obtain ⟨hc, hms, hl⟩ := get_hit_state s qp tp now e hnd hsome hnexp
  -- the fresh key is still absent after the promoting get
  have hfresh' :
      mapGet (ResponseCache.get s qp tp now).2.cache (generateKey q u)
        = none := by
    rw [hc, mapGet_append]
    rw [mapGet_mapDelete_ne _ _ _ hkne, hfresh]
    simp [mapGet, Ne.symm hkne]
  have hcap' : (ResponseCache.get s qp tp now).2.maxSize
      ≤ (ResponseCache.get s qp tp now).2.cache.length := by
    rw [hms, hl]; exact hcap
  have hne' : (ResponseCache.get s qp tp now).2.cache ≠ [] := by
    intro hnil
    rw [hnil] at hl
    simp at hl
    omega
  obtain ⟨hc2, -⟩ :=
    set_evicts_head (ResponseCache.get s qp tp now).2 q a u now
      hfresh' hcap' hne'
  rw [hc2]
  -- the promoted binding sits at the very end of the pre-set map, so the
  -- head eviction cannot touch it
  have hdne : mapDelete s.cache (generateKey qp tp) ≠ [] := by
    have hlen := mapDelete_length_of_get_some s.cache _ e hsome
    intro hnil
    rw [hnil] at hlen
    simp at hlen
    omega
  obtain ⟨pd, restd, hpd⟩ := List.exists_cons_of_ne_nil hdne
  have htail : (ResponseCache.get s qp tp now).2.cache.tail
      = restd ++
        [(generateKey qp tp, { e with hitCount := e.hitCount + 1 })] := by
    rw [hc, hpd]
    simp
  rw [htail, mapGet_append_isSome, mapGet_append_isSome]
  simp [mapGet]

/-- Concrete capacity-2 cache used to witness C5: two entries, `q1` inserted
before `q2`, both created at instant 0, TTL 1000. -/
def c5State : CacheState :=
  { maxSize := 2, ttlSeconds := 1000
    cache := [(generateKey "q1" "nb",
      { question := "q1", answer := "a1", notebookUrl := "nb"
        timestamp := 0, hitCount := 0 }),
      (generateKey "q2" "nb",
      { question := "q2", answer := "a2", notebookUrl := "nb"
        timestamp := 0, hitCount := 0 })]
    hits := 0, misses := 0, evictions := 0, totalQueries := 0
    writesSinceLastSave := 0 }

/-- Witness for C5 at concrete inputs over `c5State`: (i) inserting fresh
key `("q3","nb")` evicts exactly the oldest binding (`q1`); (ii) overwriting
`("q1","nb")` keeps the eviction counter and the key set; (iii) a `get` on
`("q1","nb")` beforehand protects that entry from the subsequent
at-capacity insertion of `("q3","nb")`. -/
theorem claim_C5_witness :
    ((ResponseCache.set c5State "q3" "a3" "nb" 1).cache
      = c5State.cache.tail ++
        [(generateKey "q3" "nb",
          { question := "q3", answer := "a3", notebookUrl := "nb"
            timestamp := 1, hitCount := 0 })] ∧
     (ResponseCache.set c5State "q3" "a3" "nb" 1).evictions
        = c5State.evictions + 1) ∧
    ((ResponseCache.set c5State "q1" "a1x" "nb" 1).evictions
        = c5State.evictions ∧
     ∀ k, (mapGet (ResponseCache.set c5State "q1" "a1x" "nb" 1).cache k).isSome
        = (mapGet c5State.cache k).isSome) ∧
    (mapGet
      (ResponseCache.set (ResponseCache.get c5State "q1" "nb" 1).2
        "q3" "a3" "nb" 1).cache
      (generateKey "q1" "nb")).isSome := by
  have h := claim_C5
  exact ⟨h.1 c5State "q3" "a3" "nb" 1 (by decide) (by decide) (by decide),
    h.2.1 c5State "q1" "a1x" "nb" 1 (by decide),
    h.2.2 c5State "q1" "nb" "q3" "a3" "nb" 1
      { question := "q1", answer := "a1", notebookUrl := "nb"
        timestamp := 0, hitCount := 0 }
      (by decide) (by decide) (by decide) (by decide) (by decide)
      (by decide) (by decide)⟩

/-! ## Response detector (`src/src/browser/browser-utils.ts`,
`waitForResponseOptimized`)

One loop iteration of `waitForResponseOptimized` is modelled as a step
function over an observation describing what the page showed on that poll:
the "still generating" indicator was visible; the answer-container query
returned no elements (or threw); or it returned elements, with the raw
`textContent` of the last one.  The float multipliers `1.3` and `1.2` on the
poll interval are modelled with exact rational arithmetic (`13/10`, `12/10`;
on the values reached here the doubles round to the same results).  The
overall timeout bounds how many polls fit in the window, so a finite trace
stands for the polls performed before the deadline; exhausting it without a
return is the `TimeoutError` path. -/

/-- Default `timeout` parameter of `waitForResponseOptimized`, in seconds. -/
def DEFAULT_DETECTOR_TIMEOUT_S : Nat := 120

/-- `maxInterval = 1000` (ms). -/
def MAX_POLL_INTERVAL : ℚ := 1000

/-- What one poll of the page observed. -/
inductive PollObs where
  /-- The "still generating" indicator element is visible. -/
  | thinking
  /-- The answer-container query returned no elements (or threw). -/
  | noResponses
  /-- The answer-container query returned elements; `raw` is the
  `textContent` of the last one (`none` for a null `textContent`). -/
  | gotText (raw : Option String)
deriving Repr, DecidableEq

/-- The loop state of `waitForResponseOptimized` between polls. -/
structure DetectorState where
  stableCount : Nat
  lastCandidate : Option String
  pollInterval : ℚ
deriving Repr, DecidableEq

/-- Loop entry: `pollInterval = 100`, `stableCount = 0`,
`lastCandidate = null`. -/
def initDetectorState : DetectorState :=
  { stableCount := 0, lastCandidate := none, pollInterval := 100 }

/-- End-of-iteration slow backoff:
`pollInterval = Math.min(pollInterval * 1.2, maxInterval)`. -/
def backoffSlow (pi : ℚ) : ℚ := min (pi * (12 / 10)) MAX_POLL_INTERVAL

/-- Thinking-path backoff:
`pollInterval = Math.min(pollInterval * 1.3, maxInterval)`. -/
def backoffThinking (pi : ℚ) : ℚ := min (pi * (13 / 10)) MAX_POLL_INTERVAL

/-- `latestText = (await ...textContent())?.trim() || ''`. -/
def latestTextOf (raw : Option String) : String :=
  match raw with
  | none => ""
  | some s => jsTrim s

/-- Result of one loop iteration: either the loop continues with an updated
state, or the function returns the stabilized text. -/
inductive StepResult where
  | next (s : DetectorState)
  | done (answer : String)
deriving Repr, DecidableEq

/-- The response-checking block of the loop body (the `try` around the
answer-container query): on a candidate matching the previous poll's
candidate increment `stableCount` and return once it reaches 2; on a new
candidate reset `stableCount = 0`, remember it, and set
`pollInterval = 100`; otherwise leave the state unchanged. -/
def responseCheck (previousAnswer : Option String) (s : DetectorState)
    (o : PollObs) : StepResult :=
  match o with
  | .gotText raw =>
    let latestText := latestTextOf raw
    if latestText ≠ "" ∧ some latestText ≠ previousAnswer then
      if some latestText = s.lastCandidate then
        if s.stableCount + 1 ≥ 2 then .done latestText
        else .next { s with stableCount := s.stableCount + 1 }
      else
        .next { stableCount := 0, lastCandidate := some latestText
                pollInterval := 100 }
    else .next s
  | _ => .next s

/-- One full loop iteration: the thinking fast-path grows the interval by
×1.3 and skips the answer check (`continue`); otherwise the response check
runs and, unless it returned, the end-of-iteration ×1.2 backoff applies —
including right after the new-candidate branch set the interval to 100. -/
def stepPoll (previousAnswer : Option String) (s : DetectorState)
    (o : PollObs) : StepResult :=
  match o with
  | .thinking => .next { s with pollInterval := backoffThinking s.pollInterval }
  | _ =>
    match responseCheck previousAnswer s o with
    | .done t => .done t
    | .next s' => .next { s' with pollInterval := backoffSlow s'.pollInterval }

/-- Outcome of `waitForResponseOptimized`: the stabilized answer, or the
`TimeoutError` thrown when the deadline passes without one. -/
inductive DetectorOutcome where
  | answer (t : String)
  | timeoutErr
deriving Repr, DecidableEq

/-- Run the polling loop over the trace of observations made before the
deadline. -/
def runDetector (previousAnswer : Option String) :
    DetectorState → List PollObs → Option String
  | _, [] => none
  | s, o :: os =>
    match stepPoll previousAnswer s o with
    | .done t => some t
    | .next s' => runDetector previousAnswer s' os

/-- `waitForResponseOptimized`: return the stabilized text, or throw
`TimeoutError` when the polls within the timeout window are exhausted. -/
def waitForResponseOptimized (previousAnswer : Option String)
    (trace : List PollObs) : DetectorOutcome :=
  match runDetector previousAnswer initDetectorState trace with
  | some t => .answer t
  | none => .timeoutErr

/-- How many polls in the trace observed exactly the text `T`. -/
def countReads (T : String) : List PollObs → Nat
  | [] => 0
  | o :: os =>
    (match o with
     | .gotText raw => if latestTextOf raw = T then 1 else 0
     | _ => 0) + countReads T os

/-- Stability credit already banked in the loop state towards returning `T`:
the candidate observation plus the `stableCount` confirmations so far. -/
def credit (s : DetectorState) (T : String) : Nat :=
  if s.lastCandidate = some T then s.stableCount + 1 else 0

theorem countReads_cons_le (T : String) (o : PollObs) (os : List PollObs) :
    countReads T os ≤ countReads T (o :: os) := by
  cases o with
  | thinking => simp [countReads]
  | noResponses => simp [countReads]
  | gotText raw =>
    simp only [countReads]
    split <;> omega

/-- A text returned by the polling loop passed the guard at the returning
poll: it is non-empty and differs from `previousAnswer`. -/
theorem runDetector_guard (prev : Option String) (T : String) :
    ∀ (tr : List PollObs) (s : DetectorState),
      runDetector prev s tr = some T → T ≠ "" ∧ some T ≠ prev := by
  intro tr
  induction tr with
  | nil => intro s h; simp [runDetector] at h
  | cons o os ih =>
    intro s h
    cases o with
    | thinking =>
      simp only [runDetector, stepPoll] at h
      exact ih _ h
    | noResponses =>
      simp only [runDetector, stepPoll, responseCheck] at h
      exact ih _ h
    | gotText raw =>
      by_cases hg : latestTextOf raw ≠ "" ∧ some (latestTextOf raw) ≠ prev
      · by_cases hcand : some (latestTextOf raw) = s.lastCandidate
        · by_cases hsc : s.stableCount + 1 ≥ 2
          · simp only [runDetector, stepPoll, responseCheck, if_pos hg,
              if_pos hcand, if_pos hsc, Option.some.injEq] at h
            exact h ▸ hg
          · simp only [runDetector, stepPoll, responseCheck, if_pos hg,
              if_pos hcand, if_neg hsc] at h
            exact ih _ h
        · simp only [runDetector, stepPoll, responseCheck, if_pos hg,
            if_neg hcand] at h
          exact ih _ h
      · simp only [runDetector, stepPoll, responseCheck, if_neg hg] at h
        exact ih _ h

/-- Counting invariant: a successful run banked at least three observations
of the returned text between the state's credit and the trace — the
candidate read plus two further identical reads. -/
theorem runDetector_count (prev : Option String) (T : String) :
    ∀ (tr : List PollObs) (s : DetectorState),
      runDetector prev s tr = some T →
      3 ≤ credit s T + countReads T tr := by
  intro tr
  induction tr with
  | nil => intro s h; simp [runDetector] at h
  | cons o os ih =>
    intro s h
    cases o with
    | thinking =>
      simp only [runDetector, stepPoll] at h
      have h2 := ih _ h
      have hcr : credit { s with pollInterval := backoffThinking s.pollInterval } T
          = credit s T := rfl
      rw [hcr] at h2
      have hle := countReads_cons_le T PollObs.thinking os
      omega
    | noResponses =>
      simp only [runDetector, stepPoll, responseCheck] at h
      have h2 := ih _ h
      have hcr : credit { s with pollInterval := backoffSlow s.pollInterval } T
          = credit s T := rfl
      rw [hcr] at h2
      have hle := countReads_cons_le T PollObs.noResponses os
      omega
    | gotText raw =>
      by_cases hg : latestTextOf raw ≠ "" ∧ some (latestTextOf raw) ≠ prev
      · by_cases hcand : some (latestTextOf raw) = s.lastCandidate
        · by_cases hsc : s.stableCount + 1 ≥ 2
          · simp only [runDetector, stepPoll, responseCheck, if_pos hg,
              if_pos hcand, if_pos hsc, Option.some.injEq] at h
            subst h
            simp [countReads, credit, ← hcand]
            omega
          · simp only [runDetector, stepPoll, responseCheck, if_pos hg,
              if_pos hcand, if_neg hsc] at h
            have h2 := ih _ h
            by_cases hT : s.lastCandidate = some T
            · have hLT : latestTextOf raw = T := by
                rw [hT] at hcand
                exact Option.some.inj hcand
              simp [credit, countReads, hT, hLT] at h2 ⊢
              omega
            · have hLT : ¬ latestTextOf raw = T := by
                intro hl
                exact hT (by rw [← hcand, hl])
              simp [credit, countReads, hT, hLT] at h2 ⊢
              omega
        · simp only [runDetector, stepPoll, responseCheck, if_pos hg,
            if_neg hcand] at h
          have h2 := ih _ h
          have hge : 0 ≤ credit s T := Nat.zero_le _
          by_cases hLT : latestTextOf raw = T
          · simp [credit, countReads, hLT] at h2 ⊢
            omega
          · simp [credit, countReads, hLT] at h2 ⊢
            omega
      · simp only [runDetector, stepPoll, responseCheck, if_neg hg] at h
        have h2 := ih _ h
        have hcr : credit { s with pollInterval := backoffSlow s.pollInterval } T
            = credit s T := rfl
        rw [hcr] at h2
        have hle := countReads_cons_le T (PollObs.gotText raw) os
        omega

/-! ## Claim C2 -/

/-- **C2.** `waitForResponseOptimized` returns a text `T` only if `T` is
non-empty, differs from the `previousAnswer` option, and was read on at
least three polls (the candidate read plus two further identical reads that
drove `stableCount` to 2 — in particular it never returns on the first
stable read alone); when the polls within the timeout window are exhausted
without a stabilized text it throws `TimeoutError`; the default timeout is
120 seconds. -/
theorem claim_C2 :
    (∀ (prev : Option String) (trace : List PollObs) (T : String),
      waitForResponseOptimized prev trace = .answer T →
      T ≠ "" ∧ some T ≠ prev ∧ 3 ≤ countReads T trace) ∧
    (∀ (prev : Option String) (trace : List PollObs),
      runDetector prev initDetectorState trace = none →
      waitForResponseOptimized prev trace = .timeoutErr) ∧
    DEFAULT_DETECTOR_TIMEOUT_S = 120 := by
  refine ⟨fun prev trace T h => ?_, fun prev trace h => ?_, rfl⟩
  · have hrun : runDetector prev initDetectorState trace = some T := by
      unfold waitForResponseOptimized at h
      cases hr : runDetector prev initDetectorState trace with
      | none => rw [hr] at h; simp at h
      | some t =>
        rw [hr] at h
        simp only [DetectorOutcome.answer.injEq] at h
        subst h
        rfl
    have hguard := runDetector_guard prev T trace initDetectorState hrun
    have hcount := runDetector_count prev T trace initDetectorState hrun
    simp only [credit, initDetectorState] at hcount
    refine ⟨hguard.1, hguard.2, ?_⟩
    simp only [if_neg (by simp : ¬ (none : Option String) = some T)] at hcount
    omega
  · unfold waitForResponseOptimized
    rw [h]

/-- Witness for C2: the spec's scenario — the "still generating" indicator
visible for the first 3 polls, then the text `"Answer text."` read on 3
consecutive polls — returns exactly that text (so the theorem's conclusions
hold for it), and a trace with only two identical reads times out rather
than returning on the first stable read. -/
theorem claim_C2_witness :
    ("Answer text." ≠ "" ∧
      some "Answer text." ≠ (none : Option String) ∧
      3 ≤ countReads "Answer text."
        [PollObs.thinking, PollObs.thinking, PollObs.thinking,
         PollObs.gotText (some "Answer text."),
         PollObs.gotText (some "Answer text."),
         PollObs.gotText (some "Answer text.")]) ∧
    waitForResponseOptimized none
      [PollObs.gotText (some "only two reads"),
       PollObs.gotText (some "only two reads")] = .timeoutErr := by
  have hl : latestTextOf (some "Answer text.") = "Answer text." := by decide
  have hl2 : latestTextOf (some "only two reads") = "only two reads" := by
    decide
  have hne : ("Answer text." : String) ≠ "" := by decide
  have hne2 : ("only two reads" : String) ≠ "" := by decide
  refine ⟨claim_C2.1 none
    [PollObs.thinking, PollObs.thinking, PollObs.thinking,
     PollObs.gotText (some "Answer text."),
     PollObs.gotText (some "Answer text."),
     PollObs.gotText (some "Answer text.")] "Answer text." ?_,
    claim_C2.2.1 none
    [PollObs.gotText (some "only two reads"),
     PollObs.gotText (some "only two reads")] ?_⟩
  · simp [waitForResponseOptimized, runDetector, stepPoll, responseCheck,
      initDetectorState, hl, hne]
  · simp [runDetector, stepPoll, responseCheck, initDetectorState, hl2, hne2]

/-! ## Claim C9 -/

/-- **C9, counterexample.** The claim says the poll interval used before the
next check after a new candidate is exactly 100 ms.  From a state with
`pollInterval = 1000`, observing a fresh candidate resets `stableCount` to 0
and sets the interval to 100 inside the branch, but the end-of-iteration
backoff (`pollInterval = Math.min(pollInterval * 1.2, maxInterval)`, line
299) still runs on the same iteration, so the interval in effect before the
next check is 120, not 100. -/
theorem claim_C9_counterexample :
    stepPoll none
      { stableCount := 5, lastCandidate := none, pollInterval := 1000 }
      (.gotText (some "fresh text"))
      = .next { stableCount := 0, lastCandidate := some "fresh text"
                pollInterval := 120 } ∧
    (120 : ℚ) ≠ 100 := by
  have hl : latestTextOf (some "fresh text") = "fresh text" := by decide
  have hne : ("fresh text" : String) ≠ "" := by decide
  constructor
  · simp only [stepPoll, responseCheck, hl]
    rw [if_pos ⟨hne, by simp⟩, if_neg (by simp)]
    have h120 : backoffSlow 100 = 120 := by
      rw [backoffSlow, MAX_POLL_INTERVAL, min_def]
      norm_num
    simp [h120]
  · norm_num

/-- **C9, amended.** On a poll observing a new candidate (non-empty text
differing from the previous answer and from the previous poll's candidate),
`stableCount` is reset to 0, the candidate is remembered, and `pollInterval`
is set to 100 inside the branch — but the end-of-iteration ×1.2 backoff then
runs, so the interval in effect before the next check is
`min(100 × 1.2, 1000) = 120` ms, not 100 ms. -/
theorem claim_C9 (prev : Option String) (s : DetectorState)
    (raw : Option String)
    (h1 : latestTextOf raw ≠ "")
    (h2 : some (latestTextOf raw) ≠ prev)
    (h3 : some (latestTextOf raw) ≠ s.lastCandidate) :
    responseCheck prev s (.gotText raw)
      = .next { stableCount := 0, lastCandidate := some (latestTextOf raw)
                pollInterval := 100 } ∧
    stepPoll prev s (.gotText raw)
      = .next { stableCount := 0, lastCandidate := some (latestTextOf raw)
                pollInterval := backoffSlow 100 } ∧
    backoffSlow 100 = 120 := by
  have hrc : responseCheck prev s (.gotText raw)
      = .next { stableCount := 0, lastCandidate := some (latestTextOf raw)
                pollInterval := 100 } := by
    simp only [responseCheck, if_neg h3]
    rw [if_pos (And.intro h1 h2)]
  have h120 : backoffSlow 100 = 120 := by
    rw [backoffSlow, MAX_POLL_INTERVAL, min_def]
    norm_num
  refine ⟨hrc, ?_, h120⟩
  simp only [stepPoll, hrc]

/-- Witness for C9 (amended) at a concrete input: previous answer absent,
initial loop state, raw text `" new stuff "` (trimming to `"new stuff"`). -/
theorem claim_C9_witness :
    responseCheck none initDetectorState (.gotText (some " new stuff "))
      = .next { stableCount := 0, lastCandidate := some "new stuff"
                pollInterval := 100 } ∧
    stepPoll none initDetectorState (.gotText (some " new stuff "))
      = .next { stableCount := 0, lastCandidate := some "new stuff"
                pollInterval := backoffSlow 100 } ∧
    backoffSlow 100 = 120 := by
  have h := claim_C9 none initDetectorState (some " new stuff ")
    (by decide) (by decide) (by decide)
  have hl : latestTextOf (some " new stuff ") = "new stuff" := by decide
  rw [hl] at h
  exact h

/-! ## Session pool (`SessionPool` / `NotebookLMSession`)

JS object identity is modelled by an allocation number `sid` drawn from the
pool state's counter; "the identical Session object" means equal `sid`.
The calls `getSession` makes on sessions (`validateAuth`, `close`,
`resetIfNeeded`) and the constructions it performs are recorded in an event
log.  `validateAuth()` depends on the live browser, so the value it *would*
return is an input `authOk`; whether it is consulted at all is part of what
is verified.  Browser navigation inside `resetIfNeeded` and context
shutdown inside `close` are external I/O; their state effects on the
session object are embedded. -/

/-- `DEFAULT_IDLE_TIMEOUT_MS = 15 * 60 * 1000`. -/
def DEFAULT_IDLE_TIMEOUT_MS : Nat := 15 * 60 * 1000

/-- The mutable state of a `NotebookLMSession` relevant to the pool:
`sid` is the object's identity (allocation number). -/
structure Session where
  sid : Nat
  notebookUrl : String
  headless : Bool
  initialized : Bool
deriving Repr, DecidableEq

/-- `new NotebookLMSession(notebookUrl, headless, idleTimeoutMs)`: fields
bound, `_initialized = false` (initialization is lazy, on first use). -/
def mkSession (sid : Nat) (notebookUrl : String) (headless : Bool) :
    Session :=
  { sid := sid, notebookUrl := notebookUrl, headless := headless
    initialized := false }

/-- `NotebookLMSession.resetIfNeeded(notebookUrl)`: when the bound URL
differs, repoint the session (navigate + readiness wait, external I/O) and
report `true`; otherwise report `false`. -/
def resetIfNeeded (s : Session) (notebookUrl : String) : Session × Bool :=
  if notebookUrl ≠ s.notebookUrl then
    ({ s with notebookUrl := notebookUrl }, true)
  else (s, false)

/-- `NotebookLMSession.close()`: release the context; `_initialized =
false`.  The object keeps its identity but is discarded by the pool. -/
def close (s : Session) : Session := { s with initialized := false }

/-- Calls performed by `SessionPool.getSession`, in order. -/
inductive PoolEvent where
  | created (sid : Nat)
  | validateAuthCalled (sid : Nat) (result : Bool)
  | closeCalled (sid : Nat)
  | resetIfNeededCalled (sid : Nat) (url : String)
deriving Repr, DecidableEq

/-- The `SessionPool` state: the `_sessions` map plus the allocation
counter standing for object identity. -/
structure PoolState where
  sessions : List (String × Session)
  nextId : Nat
deriving Repr, DecidableEq

/-- `SessionPool._getSessionKey`: `` `${notebookUrl}:${headless}` ``. -/
def getSessionKey (notebookUrl : String) (headless : Bool) : String :=
  notebookUrl ++ ":" ++ (if headless then "true" else "false")

/-- `SessionPool.getSession(notebookUrl, headless)`: on a missing key,
construct and store a new session; on a hit, call `validateAuth()` and — if
invalid — close the old session, construct a replacement, and store it under
the same key.  Always call `resetIfNeeded(notebookUrl)` on the session
before returning it (the map write-back reflects the in-place mutation of
the shared object).  Returns (session, new pool state, event log). -/
def getSession (st : PoolState) (notebookUrl : String) (headless : Bool)
    (authOk : Bool) : Session × PoolState × List PoolEvent :=
  let sessionKey := getSessionKey notebookUrl headless
  match mapGet st.sessions sessionKey with
  | none =>
    let session := mkSession st.nextId notebookUrl headless
    let r := resetIfNeeded session notebookUrl
    (r.1,
     { sessions := mapSet st.sessions sessionKey r.1
       nextId := st.nextId + 1 },
     [.created session.sid, .resetIfNeededCalled session.sid notebookUrl])
  | some session =>
    if authOk then
      let r := resetIfNeeded session notebookUrl
      (r.1,
       { sessions := mapSet st.sessions sessionKey r.1
         nextId := st.nextId },
       [.validateAuthCalled session.sid true,
        .resetIfNeededCalled session.sid notebookUrl])
    else
      let session2 := mkSession st.nextId notebookUrl headless
      let r := resetIfNeeded session2 notebookUrl
      (r.1,
       { sessions := mapSet st.sessions sessionKey r.1
         nextId := st.nextId + 1 },
       [.validateAuthCalled session.sid false, .closeCalled session.sid,
        .created session2.sid, .resetIfNeededCalled session2.sid notebookUrl])

theorem resetIfNeeded_self (s : Session) (u : String)
    (h : s.notebookUrl = u) : resetIfNeeded s u = (s, false) := by
  simp [resetIfNeeded, h]

theorem resetIfNeeded_fields (s : Session) (u : String) :
    (resetIfNeeded s u).1.notebookUrl = u ∧
    (resetIfNeeded s u).1.sid = s.sid ∧
    (resetIfNeeded s u).1.headless = s.headless ∧
    (resetIfNeeded s u).1.initialized = s.initialized := by
  unfold resetIfNeeded
  split
  · simp
  · next h =>
    simp only [ne_eq, Decidable.not_not] at h
    simp [← h]

/-- `getSession` on a missing key: construct, store, reset (a no-op — the
fresh session is already bound to the requested URL). -/
theorem getSession_fresh (st : PoolState) (u : String) (h a : Bool)
    (hm : mapGet st.sessions (getSessionKey u h) = none) :
    getSession st u h a =
      (mkSession st.nextId u h,
       { sessions := mapSet st.sessions (getSessionKey u h)
           (mkSession st.nextId u h)
         nextId := st.nextId + 1 },
       [.created st.nextId, .resetIfNeededCalled st.nextId u]) := by
  have hr : resetIfNeeded (mkSession st.nextId u h) u
      = (mkSession st.nextId u h, false) :=
    resetIfNeeded_self _ _ rfl
  simp [getSession, hm, hr]
  rfl

/-- `getSession` on a hit with valid auth: reset and return the pooled
session. -/
theorem getSession_reuse (st : PoolState) (u : String) (h : Bool)
    (s0 : Session)
    (hm : mapGet st.sessions (getSessionKey u h) = some s0) :
    getSession st u h true =
      ((resetIfNeeded s0 u).1,
       { sessions := mapSet st.sessions (getSessionKey u h)
           (resetIfNeeded s0 u).1
         nextId := st.nextId },
       [.validateAuthCalled s0.sid true,
        .resetIfNeededCalled s0.sid u]) := by
  simp [getSession, hm]

/-- `getSession` on a hit with failed auth: close the old session, build a
replacement under the same key. -/
theorem getSession_replace (st : PoolState) (u : String) (h : Bool)
    (s0 : Session)
    (hm : mapGet st.sessions (getSessionKey u h) = some s0) :
    getSession st u h false =
      (mkSession st.nextId u h,
       { sessions := mapSet st.sessions (getSessionKey u h)
           (mkSession st.nextId u h)
         nextId := st.nextId + 1 },
       [.validateAuthCalled s0.sid false, .closeCalled s0.sid,
        .created st.nextId, .resetIfNeededCalled st.nextId u]) := by
  have hr : resetIfNeeded (mkSession st.nextId u h) u
      = (mkSession st.nextId u h, false) :=
    resetIfNeeded_self _ _ rfl
  simp [getSession, hm, hr]
  rfl

theorem mapGet_mem {α : Type} (m : List (String × α)) (k : String) (v : α)
    (h : mapGet m k = some v) : (k, v) ∈ m := by
  induction m with
  | nil => simp [mapGet] at h
  | cons p rest ih =>
    obtain ⟨k', v'⟩ := p
    by_cases hp : k' = k
    · subst hp
      simp [mapGet] at h
      subst h
      exact List.mem_cons_self _ _
    · simp [mapGet, hp] at h
      exact List.mem_cons_of_mem _ (ih h)

/-! ## Claim C3 -/

/-- **C3.** Two consecutive `getSession(u, h)` calls in which
`validateAuth()` does not return `false` (modelled by `authOk = true`; on a
fresh create it is not consulted at all) return the identical session object
on the second call, and `resetIfNeeded(u)` is invoked on the returned
session on every call, including on reuse. -/
theorem claim_C3 (st : PoolState) (u : String) (h : Bool) :
    (getSession (getSession st u h true).2.1 u h true).1
      = (getSession st u h true).1 ∧
    PoolEvent.resetIfNeededCalled (getSession st u h true).1.sid u
      ∈ (getSession st u h true).2.2 ∧
    PoolEvent.resetIfNeededCalled
        (getSession (getSession st u h true).2.1 u h true).1.sid u
      ∈ (getSession (getSession st u h true).2.1 u h true).2.2 := by
  cases hm : mapGet st.sessions (getSessionKey u h) with
  | none =>
    rw [getSession_fresh st u h true hm]
    dsimp only
    have hm2 : mapGet
        (mapSet st.sessions (getSessionKey u h) (mkSession st.nextId u h))
        (getSessionKey u h) = some (mkSession st.nextId u h) :=
      mapGet_mapSet_self _ _ _
    rw [getSession_reuse
      { sessions := mapSet st.sessions (getSessionKey u h)
          (mkSession st.nextId u h)
        nextId := st.nextId + 1 } u h _ hm2]
    dsimp only
    rw [resetIfNeeded_self (mkSession st.nextId u h) u rfl]
    exact ⟨rfl, by simp [mkSession], by simp [mkSession]⟩
  | some s0 =>
    rw [getSession_reuse st u h s0 hm]
    dsimp only
    have hm2 : mapGet
        (mapSet st.sessions (getSessionKey u h) (resetIfNeeded s0 u).1)
        (getSessionKey u h) = some (resetIfNeeded s0 u).1 :=
      mapGet_mapSet_self _ _ _
    rw [getSession_reuse
      { sessions := mapSet st.sessions (getSessionKey u h)
          (resetIfNeeded s0 u).1
        nextId := st.nextId } u h _ hm2]
    dsimp only
    obtain ⟨hurl, hsid, -, -⟩ := resetIfNeeded_fields s0 u
    rw [resetIfNeeded_self (resetIfNeeded s0 u).1 u hurl]
    refine ⟨rfl, by simp [hsid], by simp [hsid]⟩

/-! ## Claim C4 -/

/-- Pool-state invariant: every pooled session was allocated before the
current allocation counter.  It holds for the empty pool and is preserved
by `getSession`. -/
def PoolInv (st : PoolState) : Prop :=
  ∀ p ∈ st.sessions, p.2.sid < st.nextId

/-- **C4.** When the pooled session's `validateAuth()` returns `false`
(`authOk = false`), `getSession` returns a session distinct from the
previous one, `close()` has been invoked on the previous session, and the
replacement is stored in the pool map under the same key. -/
theorem claim_C4 (st : PoolState) (u : String) (h : Bool) (s0 : Session)
    (hinv : PoolInv st)
    (hm : mapGet st.sessions (getSessionKey u h) = some s0) :
    (getSession st u h false).1.sid ≠ s0.sid ∧
    PoolEvent.closeCalled s0.sid ∈ (getSession st u h false).2.2 ∧
    mapGet (getSession st u h false).2.1.sessions (getSessionKey u h)
      = some (getSession st u h false).1 := by
  have hs0 : s0.sid < st.nextId :=
    hinv _ (mapGet_mem st.sessions _ s0 hm)
  rw [getSession_replace st u h s0 hm]
  refine ⟨?_, by simp, mapGet_mapSet_self _ _ _⟩
  simp only [mkSession]
  omega

/-- Witness for C4 at a concrete input: a pool holding one session (sid 0)
for `("https://nb/a", headless = true)` whose auth check fails. -/
theorem claim_C4_witness :
    (getSession
      { sessions := [(getSessionKey "https://nb/a" true,
          mkSession 0 "https://nb/a" true)], nextId := 1 }
      "https://nb/a" true false).1.sid ≠ (mkSession 0 "https://nb/a" true).sid ∧
    PoolEvent.closeCalled (mkSession 0 "https://nb/a" true).sid
      ∈ (getSession
        { sessions := [(getSessionKey "https://nb/a" true,
            mkSession 0 "https://nb/a" true)], nextId := 1 }
        "https://nb/a" true false).2.2 ∧
    mapGet (getSession
      { sessions := [(getSessionKey "https://nb/a" true,
          mkSession 0 "https://nb/a" true)], nextId := 1 }
      "https://nb/a" true false).2.1.sessions
      (getSessionKey "https://nb/a" true)
      = some (getSession
        { sessions := [(getSessionKey "https://nb/a" true,
            mkSession 0 "https://nb/a" true)], nextId := 1 }
        "https://nb/a" true false).1 :=
  claim_C4
    { sessions := [(getSessionKey "https://nb/a" true,
        mkSession 0 "https://nb/a" true)], nextId := 1 }
    "https://nb/a" true (mkSession 0 "https://nb/a" true)
    (by intro p hp; simp at hp; simp [hp, mkSession])
    (by simp [mapGet])

/-! ## Claim C10 -/

/-- **C10.** `getSession` performs no auth validation on a newly created
session: on a missing key it returns a fresh (newly allocated), still
uninitialized session with no `validateAuth()` call in the log — whatever
`validateAuth()` would have returned; and any `validateAuth()` call it ever
performs is on a session that was already pooled under the requested key. -/
theorem claim_C10 :
    (∀ (st : PoolState) (u : String) (h a : Bool),
      mapGet st.sessions (getSessionKey u h) = none →
      (getSession st u h a).1.initialized = false ∧
      (getSession st u h a).1.sid = st.nextId ∧
      PoolEvent.created st.nextId ∈ (getSession st u h a).2.2 ∧
      ∀ sid res,
        PoolEvent.validateAuthCalled sid res ∉ (getSession st u h a).2.2) ∧
    (∀ (st : PoolState) (u : String) (h a : Bool) (sid : Nat) (res : Bool),
      PoolEvent.validateAuthCalled sid res ∈ (getSession st u h a).2.2 →
      ∃ s0, mapGet st.sessions (getSessionKey u h) = some s0
        ∧ sid = s0.sid) := by
  constructor
  · intro st u h a hm
    rw [getSession_fresh st u h a hm]
    exact ⟨rfl, rfl, by simp, by simp⟩
  · intro st u h a sid res hev
    cases hm : mapGet st.sessions (getSessionKey u h) with
    | none =>
      rw [getSession_fresh st u h a hm] at hev
      simp at hev
    | some s0 =>
      refine ⟨s0, rfl, ?_⟩
      cases a with
      | true =>
        rw [getSession_reuse st u h s0 hm] at hev
        simp at hev
        exact hev.1
      | false =>
        rw [getSession_replace st u h s0 hm] at hev
        simp at hev
        exact hev.1

/-- Witness for C10: the first `getSession` on an empty pool (key absent)
returns the fresh uninitialized session 0 with no auth check; and on a pool
where the key is present with failing auth, the logged `validateAuth()`
call targets the pooled session. -/
theorem claim_C10_witness :
    ((getSession { sessions := [], nextId := 0 } "https://nb/a" true
        true).1.initialized = false ∧
     (getSession { sessions := [], nextId := 0 } "https://nb/a" true
        true).1.sid = 0 ∧
     PoolEvent.created 0
       ∈ (getSession { sessions := [], nextId := 0 } "https://nb/a" true
          true).2.2 ∧
     ∀ sid res, PoolEvent.validateAuthCalled sid res
       ∉ (getSession { sessions := [], nextId := 0 } "https://nb/a" true
          true).2.2) ∧
    (∃ s0, mapGet
        [(getSessionKey "https://nb/a" true, mkSession 7 "https://nb/a" true)]
        (getSessionKey "https://nb/a" true) = some s0 ∧ 7 = s0.sid) := by
  have h := claim_C10
  refine ⟨h.1 { sessions := [], nextId := 0 } "https://nb/a" true true
    (by simp [mapGet]), ?_⟩
  exact h.2
    { sessions := [(getSessionKey "https://nb/a" true,
        mkSession 7 "https://nb/a" true)], nextId := 8 }
    "https://nb/a" true false 7 false
    (by rw [getSession_replace _ _ _ (mkSession 7 "https://nb/a" true)
        (by simp [mapGet])]; simp [mkSession])

end NotebookLM
